import Mathlib

/-!
Shallow embedding of the contract extraction/ingestion pipeline
(`src/ingestion/extraction.py` and `src/ingestion/contract_schema.py`)
of the EnterpriseSearch-BigQueryAI repository, together with proofs of
the specification's claims about it.

External collaborators (the GCS object store, the Gemini extraction
service, the BigQuery client, and the stdlib JSON parser) are passed in
as explicit parameters: a store listing is a list of blob names, the
dedup query result is an `Except` value, the extraction-service response
for a document is an `Except` value, and `json.loads` is an abstract
partial parser `String → Option JsonObj`.
-/

namespace Pipeline

/-! ## JSON values (the shape produced by `json.loads` on an object) -/

/-- A JSON value as produced by `json.loads`; numerics are modelled as
integers (no claim depends on float formatting or precision). -/
inductive JVal where
  | jnull : JVal
  | jstr (s : String) : JVal
  | jnum (n : Int) : JVal
  | jarr (items : List JVal) : JVal
deriving Repr

/-- A parsed JSON object: an association list of keys to values, as
`json.loads` yields for a JSON object literal. -/
abbrev JsonObj := List (String × JVal)

/-! ## Data model (`contract_schema.py`) -/

/-- The `ContractExtraction` pydantic model: nine optional scalar fields
and two string-list fields with default `[]`. `numeric_value` is
`Optional[float]` in the source; modelled with `Int` payloads. -/
structure ContractExtraction where
  company_name : Option String
  form_type : Option String
  filing_date : Option String
  state_of_incorp : Option String
  contract_category : Option String
  contract_type : Option String
  governing_law_state : Option String
  contract_summary : Option String
  numeric_value : Option Int
  parties : List String
  clauses : List String
deriving DecidableEq, Repr

/-- The `Contract` pydantic model: `ContractExtraction` plus the two
metadata fields `contract_id` and `file_path` added after extraction. -/
structure Contract extends ContractExtraction where
  contract_id : String
  file_path : String
deriving DecidableEq, Repr

/-! ### Validation semantics of `ContractExtraction(**data)`

The installed pydantic is v2 (both `google-genai` and the current
`langchain` stack require `pydantic >= 2`).  Under pydantic v2 a field
declared `Optional[str] = Field(description=...)` has **no default**, so
the key is required to be present in the input even though its value may
be `null`; only `parties` and `clauses` carry `default=[]` and may be
absent.  Lax-mode numeric-string coercion for `numeric_value` is not
modelled (no claim exercises it). -/

/-- Validate one required-but-nullable string field (`Optional[str]`
with no default): the key must be present; its value may be `null` or a
string. -/
def valOptStr (data : JsonObj) (key : String) : Except String (Option String) :=
  match data.lookup key with
  | none => .error (key ++ ": field required")
  | some .jnull => .ok none
  | some (.jstr s) => .ok (some s)
  | some _ => .error (key ++ ": string or null expected")

/-- Validate the required-but-nullable numeric field (`Optional[float]`
with no default). -/
def valOptNum (data : JsonObj) (key : String) : Except String (Option Int) :=
  match data.lookup key with
  | none => .error (key ++ ": field required")
  | some .jnull => .ok none
  | some (.jnum n) => .ok (some n)
  | some _ => .error (key ++ ": number or null expected")

/-- Validate one `List[str] = Field(default=[])` field: an absent key
defaults to `[]`; a present value must be an array of strings. -/
def valStrList (data : JsonObj) (key : String) : Except String (List String) :=
  match data.lookup key with
  | none => .ok []
  | some (.jarr items) =>
      items.mapM (fun v =>
        match v with
        | .jstr s => Except.ok s
        | _ => Except.error (key ++ ": string item expected"))
  | some _ => .error (key ++ ": array expected")

/-- `ContractExtraction(**data)`: field-by-field validation of a parsed
JSON object against the `ContractExtraction` model under pydantic v2
semantics. Extra keys are ignored, as pydantic does by default. -/
def ContractExtraction.validate (data : JsonObj) : Except String ContractExtraction := do
  let company_name ← valOptStr data "company_name"
  let form_type ← valOptStr data "form_type"
  let filing_date ← valOptStr data "filing_date"
  let state_of_incorp ← valOptStr data "state_of_incorp"
  let contract_category ← valOptStr data "contract_category"
  let contract_type ← valOptStr data "contract_type"
  let governing_law_state ← valOptStr data "governing_law_state"
  let contract_summary ← valOptStr data "contract_summary"
  let numeric_value ← valOptNum data "numeric_value"
  let parties ← valStrList data "parties"
  let clauses ← valStrList data "clauses"
  pure { company_name, form_type, filing_date, state_of_incorp,
         contract_category, contract_type, governing_law_state,
         contract_summary, numeric_value, parties, clauses }

/-- `Contract(**contract_data)` where `contract_data` is
`extraction.model_dump()` plus `contract_id` and `file_path`: every
field of the dump is already of the declared type and the two added
metadata fields are strings, so this validation always succeeds. -/
def mkContract (e : ContractExtraction) (contract_id file_path : String) : Contract :=
  { e with contract_id := contract_id, file_path := file_path }

/-! ## Source enumerator and dedup filter
(`get_processed_files`, `get_gcs_files`) -/

/-- The extension filter of `get_gcs_files`:
`blob.name.lower().endswith(('.htm', '.html', '.pdf', '.txt'))`. -/
def isContractFile (name : String) : Bool :=
  let n := name.toLower
  n.endsWith ".htm" || n.endsWith ".html" || n.endsWith ".pdf" || n.endsWith ".txt"

/-- The enumeration step of `get_gcs_files`: keep blobs with a
recognized extension and form their `gs://bucket/name` URIs. -/
def listAllFiles (bucket : String) (blobs : List String) : List String :=
  (blobs.filter isContractFile).map (fun n => "gs://" ++ bucket ++ "/" ++ n)

/-- `get_processed_files`: runs `SELECT DISTINCT file_path` against the
store; on any query exception returns `[]` (the table might not exist).
The query outcome is passed in as an `Except` value. -/
def get_processed_files (queryResult : Except String (List String)) : List String :=
  match queryResult with
  | .ok rows => rows
  | .error _ => []

/-- `get_gcs_files(skip_processed)`: enumerate all candidate files, and
when `skip_processed` is true drop those whose URI is in the
already-processed set. -/
def get_gcs_files (bucket : String) (blobs : List String)
    (queryResult : Except String (List String)) (skip_processed : Bool) : List String :=
  let all_files := listAllFiles bucket blobs
  if skip_processed then
    let processed_files := get_processed_files queryResult
    all_files.filter (fun f => decide (f ∉ processed_files))
  else
    all_files

/-! ## Extraction worker (`extract_contract`) -/

/-- The MIME selection of `extract_contract`: default `text/html`,
overridden for `.pdf` and `.txt` suffixes (case-insensitive). -/
def mimeType (gcs_path : String) : String :=
  if (gcs_path.toLower).endsWith ".pdf" then "application/pdf"
  else if (gcs_path.toLower).endsWith ".txt" then "text/plain"
  else "text/html"

/-- Python whitespace, as stripped by `str.strip()` (ASCII subset). -/
def isSpaceChar (c : Char) : Bool :=
  c == ' ' || c == '\t' || c == '\n' || c == '\r' || c == '\x0b' || c == '\x0c'

/-- Python `str.strip()`: remove leading and trailing whitespace. -/
def pyStrip (s : String) : String :=
  ⟨((s.data.dropWhile isSpaceChar).reverse.dropWhile isSpaceChar).reverse⟩

/-- Python `str.startswith(p)`. -/
def pyStartsWith (s p : String) : Bool := p.data.isPrefixOf s.data

/-- Python `str.endswith(p)`. -/
def pyEndsWith (s p : String) : Bool := p.data.isSuffixOf s.data

/-- Python `text.split("\n")` at the character level: the (always
non-empty) list of newline-separated segments. -/
def splitOnNl : List Char → List (List Char)
  | [] => [[]]
  | c :: cs =>
    if c == '\n' then [] :: splitOnNl cs
    else
      match splitOnNl cs with
      | [] => [[c]]
      | line :: rest => (c :: line) :: rest

/-- Python `"\n".join(lines)` at the character level. -/
def joinNl : List (List Char) → List Char
  | [] => []
  | [line] => line
  | line :: rest => line ++ '\n' :: joinNl rest

/-- The line list of a text, newline-separated. -/
def toLines (text : String) : List String :=
  (splitOnNl text.data).map (fun cs => ⟨cs⟩)

/-- Rejoin a line list with newlines. -/
def joinLines (lines : List String) : String :=
  ⟨joinNl (lines.map String.data)⟩

/-- The response post-processing of `extract_contract`:
`text = response.text.strip()`, and when the stripped text both starts
and ends with three backticks,
`text = "\n".join(text.split("\n")[1:-1])`. -/
def stripFence (raw : String) : String :=
  let text := pyStrip raw
  if pyStartsWith text "```" && pyEndsWith text "```" then
    joinLines (((toLines text).drop 1).dropLast)
  else
    text

/-- Remove exactly the first and the last line of a line list. -/
def removeFirstAndLastLine (lines : List String) : List String :=
  (lines.drop 1).dropLast

/-- The fence-stripping step as the specification words it: after
whitespace trimming, a text enclosed in code fences (it both begins and
ends with three backticks) has exactly its first and its last line
removed; any other text is kept unchanged. -/
def specStripFence (raw : String) : String :=
  let text := pyStrip raw
  if pyStartsWith text "```" && pyEndsWith text "```" then
    joinLines (removeFirstAndLastLine (toLines text))
  else
    text

/-- `extract_contract(gcs_path)`: one unit of work for one document.
The extraction-service call is passed in as its outcome `response`
(`.error` when the `generate_content` call raises), `json.loads` as the
abstract parser `parse` (`none` when it raises), and `str(uuid.uuid4())`
as `freshId`.  Every failure among the service call, JSON parsing and
schema validation is caught by the enclosing `try/except` and turned
into the `none` outcome; otherwise metadata is attached and the final
`Contract` is returned. -/
def extract_contract (parse : String → Option JsonObj) (freshId : String)
    (gcs_path : String) (response : Except String String) : Option Contract :=
  match response with
  | .error _ => none
  | .ok rawText =>
    let text := stripFence rawText
    match parse text with
    | none => none
    | some data =>
      match ContractExtraction.validate data with
      | .error _ => none
      | .ok extraction => some (mkContract extraction freshId gcs_path)

/-- The worker pool as a result sequence: one `extract_contract` outcome
per submitted document, each depending only on its own document and
response. -/
def runExtractions (parse : String → Option JsonObj)
    (docs : List (String × String × Except String String)) :
    List (String × Option Contract) :=
  docs.map (fun d => (d.2.1, extract_contract parse d.1 d.2.1 d.2.2))

/-! ## Batch sink and orchestrator (`process_all`) -/

/-- The mutable state of the `process_all` loop: the `successful`
counter, the current accumulation `batch`, and the list of batches
already handed to `insert_batch` by the in-loop automatic flushes. -/
structure SinkState where
  successful : Nat
  batch : List Contract
  flushes : List (List Contract)
deriving DecidableEq, Repr

/-- One iteration of the `as_completed` drain loop: a `none` outcome
(failed extraction) leaves the sink untouched; a `some` outcome is
appended to the batch, which is flushed when it reaches `batch_size`. -/
def sinkStep (batch_size : Nat) (st : SinkState) (result : Option Contract) : SinkState :=
  match result with
  | none => st
  | some r =>
    let batch := st.batch ++ [r]
    if batch_size ≤ batch.length then
      { successful := st.successful + 1, batch := [], flushes := st.flushes ++ [batch] }
    else
      { successful := st.successful + 1, batch := batch, flushes := st.flushes }

/-- The whole drain loop over the completion-order outcome sequence. -/
def processLoop (batch_size : Nat) (completed : List (Option Contract)) : SinkState :=
  completed.foldl (sinkStep batch_size) ⟨0, [], []⟩

/-- The observable result of one `process_all` run. `submitted` is the
list of documents handed to the worker pool, `inserts` the batches
passed to `insert_batch` (automatic flushes in order, then the final
partial flush if any), `tableCreated` whether `create_table` ran. -/
structure RunResult where
  submitted : List String
  attempted : Nat
  succeeded : Nat
  failed : Nat
  tableCreated : Bool
  inserts : List (List Contract)
deriving DecidableEq, Repr

/-- `process_all(skip_processed)` after the file list has been obtained:
with no files it returns immediately having done nothing; otherwise it
creates the table, submits every file to the pool, drains completions
through the batch sink, and flushes the remaining partial batch. The
completion-order outcome sequence is passed in as `completed`. -/
def process_all (batch_size : Nat) (files : List String)
    (completed : List (Option Contract)) : RunResult :=
  if files = [] then
    { submitted := [], attempted := 0, succeeded := 0, failed := 0,
      tableCreated := false, inserts := [] }
  else
    let st := processLoop batch_size completed
    let inserts := if st.batch = [] then st.flushes else st.flushes ++ [st.batch]
    { submitted := files, attempted := files.length, succeeded := st.successful,
      failed := files.length - st.successful, tableCreated := true, inserts := inserts }

/-! ## Row formatting and the bulk write (`insert_batch`) -/

/-- A Python value as it occurs in a `model_dump()` row. -/
inductive PyVal where
  | vnone : PyVal
  | vstr (s : String) : PyVal
  | vnum (n : Int) : PyVal
  | vlist (items : List PyVal) : PyVal
deriving Repr

/-- Python truthiness, as used by `if item` in the list comprehension. -/
def PyVal.truthy : PyVal → Bool
  | .vnone => false
  | .vstr s => !(s == "")
  | .vnum n => !(n == 0)
  | .vlist items => !items.isEmpty

mutual

/-- Python `str(value)` for row values; numerics are printed from their
integer model, and the list rendering (unreachable for contract rows,
where lists occur only under `parties`/`clauses`) elides `repr`
quoting. -/
def PyVal.str : PyVal → String
  | .vnone => "None"
  | .vstr s => s
  | .vnum n => toString n
  | .vlist items => "[" ++ PyVal.strItems items ++ "]"

/-- Comma-separated rendering of list items for `PyVal.str`. -/
def PyVal.strItems : List PyVal → String
  | [] => ""
  | [v] => PyVal.str v
  | v :: vs => PyVal.str v ++ ", " ++ PyVal.strItems vs

end

/-- Whether a value `isinstance(value, list)`. -/
def PyVal.isList : PyVal → Bool
  | .vlist _ => true
  | _ => false

/-- Whether a value `is None`. -/
def PyVal.isNone : PyVal → Bool
  | .vnone => true
  | _ => false

/-- The items of a list value (`[]` otherwise; only applied to lists). -/
def PyVal.listItems : PyVal → List PyVal
  | .vlist items => items
  | _ => []

/-- A value in a row formatted for the BigQuery JSON insert. -/
inductive BqVal where
  | bstr (s : String) : BqVal
  | blist (items : List String) : BqVal
deriving DecidableEq, Repr

/-- The per-key body of the formatting loop of `insert_batch`:
`parties`/`clauses` lists keep only truthy items converted with `str`;
any other non-`None` value is converted with `str`; a `None` value is
omitted from the output row. -/
def formatEntry (key : String) (value : PyVal) : Option (String × BqVal) :=
  if (key == "parties" || key == "clauses") && value.isList then
    some (key, .blist ((value.listItems.filter PyVal.truthy).map PyVal.str))
  else if !value.isNone then
    some (key, .bstr value.str)
  else
    none

/-- The whole row loop of `insert_batch`: each key/value pair of the
row dict is formatted in order, `None` values dropped. -/
def formatRow (row : List (String × PyVal)) : List (String × BqVal) :=
  row.filterMap (fun kv => formatEntry kv.1 kv.2)

/-- The `model_dump()` image of an optional string field. -/
def optVal : Option String → PyVal
  | none => PyVal.vnone
  | some s => PyVal.vstr s

/-- The `model_dump()` image of the optional numeric field. -/
def numVal : Option Int → PyVal
  | none => PyVal.vnone
  | some n => PyVal.vnum n

/-- `final_contract.model_dump()`: the row dict of a `Contract`, keys in
pydantic field-declaration order (parent fields first). -/
def Contract.toRow (c : Contract) : List (String × PyVal) :=
  [ ("company_name", optVal c.company_name),
    ("form_type", optVal c.form_type),
    ("filing_date", optVal c.filing_date),
    ("state_of_incorp", optVal c.state_of_incorp),
    ("contract_category", optVal c.contract_category),
    ("contract_type", optVal c.contract_type),
    ("governing_law_state", optVal c.governing_law_state),
    ("contract_summary", optVal c.contract_summary),
    ("numeric_value", numVal c.numeric_value),
    ("parties", PyVal.vlist (c.parties.map PyVal.vstr)),
    ("clauses", PyVal.vlist (c.clauses.map PyVal.vstr)),
    ("contract_id", PyVal.vstr c.contract_id),
    ("file_path", PyVal.vstr c.file_path) ]

/-- A call made against the structured store by `insert_batch`. -/
inductive StoreCall where
  | insertRows (rows : List (List (String × BqVal))) : StoreCall
deriving DecidableEq, Repr

/-- `insert_batch(rows)`: an empty batch returns before any client
call; otherwise every row is formatted and one bulk
`insert_rows_json` call is made. -/
def insert_batch (rows : List Contract) : List StoreCall :=
  if rows = [] then []
  else [StoreCall.insertRows (rows.map (fun r => formatRow r.toRow))]

/-- The written row as the specification words it: each optional scalar
column appears exactly when its value is present, converted to a string;
`parties` and `clauses` keep their non-empty items; the two required
metadata columns close the row. -/
def optColumn (key : String) (v : Option String) : List (String × BqVal) :=
  match v with
  | none => []
  | some s => [(key, BqVal.bstr s)]

/-- The numeric column of the spec-side row. -/
def numColumn (key : String) (v : Option Int) : List (String × BqVal) :=
  match v with
  | none => []
  | some n => [(key, BqVal.bstr (toString n))]

/-- The BigQuery row of a `Contract` as the specification describes it:
`None`-valued fields omitted, every remaining scalar stringified, list
fields with falsy items dropped. -/
def bqRowSpec (c : Contract) : List (String × BqVal) :=
  optColumn "company_name" c.company_name ++
  optColumn "form_type" c.form_type ++
  optColumn "filing_date" c.filing_date ++
  optColumn "state_of_incorp" c.state_of_incorp ++
  optColumn "contract_category" c.contract_category ++
  optColumn "contract_type" c.contract_type ++
  optColumn "governing_law_state" c.governing_law_state ++
  optColumn "contract_summary" c.contract_summary ++
  numColumn "numeric_value" c.numeric_value ++
  [("parties", BqVal.blist (c.parties.filter (fun s => !(s == "")))),
   ("clauses", BqVal.blist (c.clauses.filter (fun s => !(s == "")))),
   ("contract_id", BqVal.bstr c.contract_id),
   ("file_path", BqVal.bstr c.file_path)]

/-! ## Worker-pool scheduling model

`process_all` submits one task per file to
`ThreadPoolExecutor(max_workers=self.workers)` and drains them with
`as_completed`.  The executor's contract is that at most `max_workers`
tasks execute concurrently; the pool is modelled as a transition system
whose `start` rule fires only while fewer than `workers` tasks are
running, and whose `finish` rule completes any running task (completion
order is unconstrained). -/

/-- A scheduling state of the pool: tasks not yet started, tasks
currently executing an extraction call, and completed tasks. -/
structure PoolState where
  pending : List String
  running : List String
  done : List String
deriving DecidableEq, Repr

/-- The transition relation of the pool with `workers` worker threads. -/
inductive PoolStep (workers : Nat) : PoolState → PoolState → Prop where
  | start (f : String) (pending running done : List String) :
      running.length < workers →
      PoolStep workers ⟨f :: pending, running, done⟩ ⟨pending, f :: running, done⟩
  | finish (f : String) (pending r₁ r₂ done : List String) :
      PoolStep workers ⟨pending, r₁ ++ f :: r₂, done⟩ ⟨pending, r₁ ++ r₂, f :: done⟩

/-- The initial pool state of a run: every submitted file pending. -/
def initPool (files : List String) : PoolState := ⟨files, [], []⟩

/-! ## Concrete data used to instantiate the proved theorems -/

/-- A parsed JSON object giving every optional scalar field an explicit
`null` and leaving the defaulted list fields absent. -/
def allNullData : JsonObj :=
  [("company_name", .jnull), ("form_type", .jnull), ("filing_date", .jnull),
   ("state_of_incorp", .jnull), ("contract_category", .jnull),
   ("contract_type", .jnull), ("governing_law_state", .jnull),
   ("contract_summary", .jnull), ("numeric_value", .jnull)]

/-- The extraction with every optional field empty. -/
def emptyExtraction : ContractExtraction :=
  { company_name := none, form_type := none, filing_date := none,
    state_of_incorp := none, contract_category := none, contract_type := none,
    governing_law_state := none, contract_summary := none,
    numeric_value := none, parties := [], clauses := [] }

/-- A concrete record, indexed so distinct samples stay distinct. -/
def sampleContract (i : Nat) : Contract :=
  { toContractExtraction := emptyExtraction,
    contract_id := toString i, file_path := "gs://bucket/doc.txt" }

/-! # Theorems -/

/-! ## Shared helper lemmas -/

/-- `process_all` submits exactly the file list it is given to the
worker pool (the empty early-return submits the empty list). -/
theorem process_all_submitted (bs : Nat) (files : List String)
    (completed : List (Option Contract)) :
    (process_all bs files completed).submitted = files := by
  unfold process_all
  split
  · simp [*]
  · rfl

/-! ## C7: dedup-query failure degrades to the empty ingested set -/

/-- Claim C7: if the existence query against the store fails, the
already-ingested set is treated as empty and the run proceeds with the
full candidate list, so a first run without a pre-existing table
succeeds. -/
theorem dedup_query_failure_degrades (e bucket : String) (blobs : List String) :
    get_processed_files (.error e) = [] ∧
    get_gcs_files bucket blobs (.error e) true = listAllFiles bucket blobs := by
  refine ⟨rfl, ?_⟩
  simp [get_gcs_files, get_processed_files]

/-! ## C9: an empty candidate set is a normal terminal state -/

/-- Claim C9: with an empty candidate set after dedup, `process_all`
returns immediately: nothing submitted, zero attempted, zero succeeded,
zero failed, no table creation and no batch insert. -/
theorem empty_candidates_terminal (bs : Nat) (completed : List (Option Contract)) :
    process_all bs [] completed
      = { submitted := [], attempted := 0, succeeded := 0, failed := 0,
          tableCreated := false, inserts := [] } := rfl

/-! ## C8: code-fence stripping -/

/-- Claim C8: after whitespace trimming, a response text that both
begins and ends with three backticks has exactly its first and last
lines removed before parsing; any other text is parsed unchanged. -/
theorem code_fence_stripping (raw : String) :
    stripFence raw = specStripFence raw ∧
    ((pyStartsWith (pyStrip raw) "```" && pyEndsWith (pyStrip raw) "```") = true →
      stripFence raw = joinLines (removeFirstAndLastLine (toLines (pyStrip raw)))) ∧
    ((pyStartsWith (pyStrip raw) "```" && pyEndsWith (pyStrip raw) "```") = false →
      stripFence raw = pyStrip raw) := by
  unfold stripFence specStripFence removeFirstAndLastLine
  refine ⟨rfl, ?_, ?_⟩ <;> intro h <;> simp [h]

/-- Witness for C8 on concrete inputs: a fenced three-line response
loses its fence lines; an unfenced response is only trimmed. -/
theorem code_fence_stripping_witness :
    stripFence " ```json\nhello\n``` " = "hello" ∧
    stripFence " plain text " = "plain text" := by
  constructor
  · have h := (code_fence_stripping " ```json\nhello\n``` ").2.1
    simpa using h (by decide)
  · have h := (code_fence_stripping " plain text ").2.2
    simpa using h (by decide)

/-! ## C1: dedup filtering and force mode -/

/-- Claim C1: with `skip_processed` true, no document whose location is
already in the store's ingested set is ever submitted to the worker
pool, and the submitted sequence is exactly the candidates whose
location is absent from that set; with `skip_processed` false (force
reprocess), every candidate is submitted. -/
theorem dedup_and_force_mode (bucket : String) (blobs : List String)
    (qres : Except String (List String)) (bs : Nat)
    (completed : List (Option Contract)) :
    (∀ f ∈ get_processed_files qres,
        f ∉ (process_all bs (get_gcs_files bucket blobs qres true) completed).submitted) ∧
    get_gcs_files bucket blobs qres true
      = (listAllFiles bucket blobs).filter
          (fun f => decide (f ∉ get_processed_files qres)) ∧
    (∀ f, f ∈ get_gcs_files bucket blobs qres true ↔
        f ∈ listAllFiles bucket blobs ∧ f ∉ get_processed_files qres) ∧
    (process_all bs (get_gcs_files bucket blobs qres false) completed).submitted
      = listAllFiles bucket blobs := by
  refine ⟨?_, rfl, ?_, ?_⟩
  · intro f hf
    rw [process_all_submitted]
    intro hmem
    have hnot := (List.mem_filter.mp hmem).2
    simp only [decide_eq_true_eq] at hnot
    exact hnot hf
  · intro f
    simp [get_gcs_files, List.mem_filter]
  · rw [process_all_submitted]
    rfl

/-- Witness for C1: with one blob already recorded in the store, its
URI is not submitted, while a fresh blob's URI satisfies the
candidate-minus-processed characterization. -/
theorem dedup_and_force_mode_witness :
    "gs://b/2020/x.pdf" ∉ (process_all 10
        (get_gcs_files "b" ["2020/x.pdf", "2020/y.txt"]
          (Except.ok ["gs://b/2020/x.pdf"]) true) []).submitted ∧
    ("gs://b/2020/y.txt" ∈ get_gcs_files "b" ["2020/x.pdf", "2020/y.txt"]
          (Except.ok ["gs://b/2020/x.pdf"]) true ↔
      "gs://b/2020/y.txt" ∈ listAllFiles "b" ["2020/x.pdf", "2020/y.txt"] ∧
      "gs://b/2020/y.txt" ∉ get_processed_files (Except.ok ["gs://b/2020/x.pdf"])) :=
  ⟨(dedup_and_force_mode "b" ["2020/x.pdf", "2020/y.txt"]
      (Except.ok ["gs://b/2020/x.pdf"]) 10 []).1 "gs://b/2020/x.pdf" (by decide),
   (dedup_and_force_mode "b" ["2020/x.pdf", "2020/y.txt"]
      (Except.ok ["gs://b/2020/x.pdf"]) 10 []).2.2.1 "gs://b/2020/y.txt"⟩

/-! ## C10: row formatting of the bulk write -/

/-- `filterMap` over a cons, phrased with `Option.toList`. -/
theorem filterMap_cons_toList {α β : Type} (f : α → Option β) (a : α) (l : List α) :
    List.filterMap f (a :: l) = (f a).toList ++ List.filterMap f l := by
  cases h : f a <;> simp [List.filterMap_cons, h]

/-- Formatting an optional scalar column: present values are
stringified, `None` is omitted. -/
theorem formatEntry_optVal (k : String) (v : Option String) :
    (formatEntry k (optVal v)).toList = optColumn k v := by
  cases v <;>
    simp [formatEntry, optVal, optColumn, PyVal.isList, PyVal.isNone, PyVal.str]

/-- Formatting the numeric column: a present value is stringified,
`None` is omitted. -/
theorem formatEntry_numVal (k : String) (v : Option Int) :
    (formatEntry k (numVal v)).toList = numColumn k v := by
  cases v <;>
    simp [formatEntry, numVal, numColumn, PyVal.isList, PyVal.isNone, PyVal.str]

/-- Keeping the truthy items of a string list and stringifying them is
dropping its empty strings. -/
theorem strList_filter_truthy (l : List String) :
    ((l.map PyVal.vstr).filter PyVal.truthy).map PyVal.str
      = l.filter (fun s => !(s == "")) := by
  induction l with
  | nil => rfl
  | cons s t ih =>
    by_cases h : (s == "") = true <;>
      simp [List.filter_cons, PyVal.truthy, PyVal.str, h, ih]

/-- The formatted BigQuery row of a contract is exactly its spec-side
row. -/
theorem formatRow_toRow (c : Contract) : formatRow c.toRow = bqRowSpec c := by
  unfold formatRow Contract.toRow bqRowSpec
  simp only [filterMap_cons_toList, List.filterMap_nil,
    formatEntry_optVal, formatEntry_numVal]
  simp [formatEntry, PyVal.isList, PyVal.isNone, PyVal.listItems,
    strList_filter_truthy, PyVal.str]

/-- Claim C10: for every flushed record the row written to the store
omits `None`-valued fields, stringifies every remaining non-list value
(including `numeric_value`), and for `parties`/`clauses` drops falsy
items while stringifying the kept ones; an empty batch makes no store
call at all. -/
theorem insert_batch_row_formatting (c : Contract) (cs : List Contract) :
    insert_batch [] = [] ∧
    insert_batch (c :: cs) = [StoreCall.insertRows ((c :: cs).map bqRowSpec)] := by
  refine ⟨rfl, ?_⟩
  simp [insert_batch, formatRow_toRow]

/-! ## C6: schema tolerance (corrected) -/

/-- Claim C6 counterexample: under the installed pydantic v2 semantics
a field declared `Optional[...]` with no default is still required to be
present, so the JSON object with all optional fields absent is rejected
by schema validation, and the extraction yields a failure outcome
rather than a valid record. -/
theorem all_absent_fails_validation :
    ContractExtraction.validate ([] : JsonObj)
      = .error "company_name: field required" ∧
    extract_contract (fun _ => some []) "id-0" "gs://bucket/doc.txt" (.ok "output")
      = none := ⟨rfl, rfl⟩

/-- Claim C6 amended: an extraction whose parsed output gives every
optional scalar field an explicit `null` (the list fields may be
absent, defaulting to `[]`) passes schema validation and yields a valid
record carrying only the generated id and the source location. -/
theorem all_null_yields_valid_record (freshId gcs_path raw : String) :
    ContractExtraction.validate allNullData = .ok emptyExtraction ∧
    extract_contract (fun _ => some allNullData) freshId gcs_path (.ok raw)
      = some { toContractExtraction := emptyExtraction,
               contract_id := freshId, file_path := gcs_path } :=
  ⟨rfl, rfl⟩

/-! ## C4: per-document failure isolation -/

/-- Claim C4: a failing service call, unparseable output, or failing
schema validation is absorbed inside the per-document worker as a
`none` outcome, and one document's failure leaves every other
document's outcome unchanged while the run still produces one outcome
per document. -/
theorem failure_isolation (parse : String → Option JsonObj)
    (freshId gcs_path e raw msg : String) (data : JsonObj)
    (docs : List (String × String × Except String String))
    (k : Nat) (failId failPath : String) :
    extract_contract parse freshId gcs_path (.error e) = none ∧
    (parse (stripFence raw) = none →
      extract_contract parse freshId gcs_path (.ok raw) = none) ∧
    (parse (stripFence raw) = some data →
      ContractExtraction.validate data = .error msg →
      extract_contract parse freshId gcs_path (.ok raw) = none) ∧
    (runExtractions parse docs).length = docs.length ∧
    (∀ j, j ≠ k →
      (runExtractions parse (docs.set k (failId, failPath, .error e)))[j]?
        = (runExtractions parse docs)[j]?) := by
  refine ⟨rfl, ?_, ?_, ?_, ?_⟩
  · intro h
    simp [extract_contract, h]
  · intro h1 h2
    simp [extract_contract, h1, h2]
  · simp [runExtractions]
  · intro j hj
    simp only [runExtractions, List.getElem?_map]
    rw [List.getElem?_set_ne (fun hk => hj hk.symm)]

/-- Witness for C4: concrete failing service calls, unparseable
output, and invalid parsed output all yield `none`; with two documents
and the first one failing, the second document's outcome is unchanged. -/
theorem failure_isolation_witness :
    extract_contract (fun _ => none) "id-1" "gs://bucket/doc.txt"
      (Except.error "boom") = none ∧
    extract_contract (fun _ => none) "id-1" "gs://bucket/doc.txt"
      (Except.ok "not json") = none ∧
    extract_contract (fun _ => some []) "id-1" "gs://bucket/doc.txt"
      (Except.ok "x") = none ∧
    (runExtractions (fun _ => none)
      [("id-1", "gs://b/a.txt", Except.ok "x"),
       ("id-2", "gs://b/b.txt", Except.ok "y")]).length = 2 ∧
    (runExtractions (fun _ => none)
      ([("id-1", "gs://b/a.txt", Except.ok "x"),
        ("id-2", "gs://b/b.txt", Except.ok "y")].set 0
          ("id-1", "gs://b/a.txt", Except.error "boom")))[1]?
      = (runExtractions (fun _ => none)
          [("id-1", "gs://b/a.txt", Except.ok "x"),
           ("id-2", "gs://b/b.txt", Except.ok "y")])[1]? := by
  have A := failure_isolation (fun _ => none) "id-1" "gs://bucket/doc.txt"
    "boom" "not json" "m" []
    [("id-1", "gs://b/a.txt", Except.ok "x"),
     ("id-2", "gs://b/b.txt", Except.ok "y")] 0 "id-1" "gs://b/a.txt"
  have B := failure_isolation (fun _ => some []) "id-1" "gs://bucket/doc.txt"
    "boom" "x" "company_name: field required" [] [] 0 "id-1" "gs://b/a.txt"
  exact ⟨A.1, A.2.1 rfl, B.2.2.1 rfl rfl, A.2.2.2.1, A.2.2.2.2 1 (by decide)⟩

/-! ## Batch-sink invariants shared by C2 and C3 -/

/-- Loop invariant of the drain loop: the records flushed so far
together with the current batch are exactly the successful records
consumed so far, in order. -/
theorem sink_foldl_flushes_batch (bs : Nat) (l : List (Option Contract)) (st : SinkState) :
    ((l.foldl (sinkStep bs) st).flushes.flatten ++ (l.foldl (sinkStep bs) st).batch)
      = st.flushes.flatten ++ st.batch ++ l.filterMap id := by
  induction l generalizing st with
  | nil => simp
  | cons o t ih =>
    cases o with
    | none =>
      rw [List.foldl_cons, ih]
      simp [sinkStep]
    | some r =>
      rw [List.foldl_cons, ih]
      simp only [sinkStep]
      split <;>
        simp [List.filterMap_cons, List.flatten_append, List.append_assoc]

/-- Loop invariant of the drain loop: the `successful` counter counts
the successful records consumed so far. -/
theorem sink_foldl_successful (bs : Nat) (l : List (Option Contract)) (st : SinkState) :
    (l.foldl (sinkStep bs) st).successful
      = st.successful + (l.filterMap id).length := by
  induction l generalizing st with
  | nil => simp
  | cons o t ih =>
    cases o with
    | none =>
      rw [List.foldl_cons, ih]
      simp [sinkStep]
    | some r =>
      rw [List.foldl_cons, ih]
      simp only [sinkStep]
      split <;> simp [List.filterMap_cons] <;> omega

/-- Loop invariant of the drain loop for a positive batch size: every
automatically flushed batch has exactly `bs` records and the current
batch stays strictly below `bs`. -/
theorem sink_foldl_sizes (bs : Nat) (hbs : 1 ≤ bs) (l : List (Option Contract))
    (st : SinkState) (hf : ∀ b ∈ st.flushes, b.length = bs)
    (hb : st.batch.length < bs) :
    (∀ b ∈ (l.foldl (sinkStep bs) st).flushes, b.length = bs) ∧
    (l.foldl (sinkStep bs) st).batch.length < bs := by
  induction l generalizing st hf hb with
  | nil => exact ⟨hf, hb⟩
  | cons o t ih =>
    cases o with
    | none =>
      rw [List.foldl_cons]
      exact ih st hf hb
    | some r =>
      rw [List.foldl_cons]
      simp only [sinkStep]
      split
      case isTrue hfull =>
        refine ih _ ?_ ?_
        · intro b hbmem
          rcases List.mem_append.mp hbmem with hbmem | hbmem
          · exact hf b hbmem
          · rw [List.mem_singleton] at hbmem
            subst hbmem
            have hlen : (st.batch ++ [r]).length = st.batch.length + 1 := by simp
            omega
        · exact Nat.lt_of_lt_of_le Nat.zero_lt_one hbs
      case isFalse hfull =>
        refine ih _ ?_ ?_
        · exact hf
        · show (st.batch ++ [r]).length < bs
          omega

/-- The batches handed to `insert_batch` by a non-empty run: the
automatic flushes, then the final partial batch when non-empty. -/
theorem process_all_inserts (bs : Nat) (files : List String)
    (completed : List (Option Contract)) (hne : files ≠ []) :
    (process_all bs files completed).inserts
      = if (processLoop bs completed).batch = []
        then (processLoop bs completed).flushes
        else (processLoop bs completed).flushes ++ [(processLoop bs completed).batch] := by
  simp [process_all, hne]

/-! ## C2: batch atomicity -/

/-- Claim C2: over any run, the concatenation of all flushed batches is
exactly the sequence of records that passed schema validation — no
record in two batches, no validated record dropped, and no failed
extraction ever included in a flushed batch. -/
theorem batch_atomicity (bs : Nat) (files : List String)
    (completed : List (Option Contract)) (hne : files ≠ []) :
    (process_all bs files completed).inserts.flatten = completed.filterMap id ∧
    (∀ r : Contract,
      r ∈ (process_all bs files completed).inserts.flatten ↔ some r ∈ completed) := by
  have h : (processLoop bs completed).flushes.flatten ++ (processLoop bs completed).batch
      = completed.filterMap id := by
    simpa [processLoop] using sink_foldl_flushes_batch bs completed ⟨0, [], []⟩
  have hjoin : (process_all bs files completed).inserts.flatten
      = completed.filterMap id := by
    rw [process_all_inserts bs files completed hne]
    by_cases hb : (processLoop bs completed).batch = []
    · rw [if_pos hb]
      rw [hb] at h
      simpa using h
    · rw [if_neg hb]
      rw [List.flatten_append]
      simpa [List.append_assoc] using h
  refine ⟨hjoin, ?_⟩
  intro r
  rw [hjoin]
  simp only [List.mem_filterMap, id_eq]
  constructor
  · rintro ⟨o, ho, rfl⟩
    exact ho
  · intro h
    exact ⟨some r, h, rfl⟩

/-- Witness for C2: a run of one file and two outcomes, one success and
one failure, flushes exactly the one validated record. -/
theorem batch_atomicity_witness :
    (process_all 1 ["gs://bucket/doc.txt"]
        [some (sampleContract 1), none]).inserts.flatten
      = [some (sampleContract 1), none].filterMap id ∧
    (∀ r : Contract,
      r ∈ (process_all 1 ["gs://bucket/doc.txt"]
        [some (sampleContract 1), none]).inserts.flatten
        ↔ some r ∈ [some (sampleContract 1), none]) :=
  batch_atomicity 1 ["gs://bucket/doc.txt"]
    [some (sampleContract 1), none] (List.cons_ne_nil _ _)

/-! ## C3: batch sizing -/

/-- The flattening of equally-sized blocks has length
`blockSize * blockCount`. -/
theorem flatten_length_const {α : Type} (bs : Nat) (L : List (List α))
    (h : ∀ b ∈ L, b.length = bs) : L.flatten.length = bs * L.length := by
  induction L with
  | nil => simp
  | cons b t ih =>
    simp only [List.flatten_cons, List.length_append, List.length_cons]
    rw [h b (List.mem_cons_self b t), ih (fun x hx => h x (List.mem_cons_of_mem b hx))]
    ring

/-- Quotient/remainder decompositions with remainders below the divisor
are unique. -/
theorem euclid_unique (bs n m k r : Nat) (hm : m < bs) (hr : r < bs)
    (h : bs * n + m = bs * k + r) : n = k ∧ m = r := by
  have hbs : 0 < bs := Nat.lt_of_le_of_lt (Nat.zero_le m) hm
  have h1 : (bs * n + m) / bs = n := by
    rw [Nat.mul_add_div hbs, Nat.div_eq_of_lt hm, Nat.add_zero]
  have h2 : (bs * k + r) / bs = k := by
    rw [Nat.mul_add_div hbs, Nat.div_eq_of_lt hr, Nat.add_zero]
  have hnk : n = k := by rw [← h1, h, h2]
  subst hnk
  exact ⟨rfl, Nat.add_left_cancel h⟩

/-- Claim C3: a run with a positive `batch_size` whose successful
record count is `batch_size * k + r` with `r < batch_size` performs
exactly `k` automatic flushes of `batch_size` records each, and exactly
one final flush of the `r` remaining records when `r > 0` and none when
`r = 0`. -/
theorem batch_sizing (bs k r : Nat) (files : List String)
    (completed : List (Option Contract))
    (hbs : 1 ≤ bs) (hne : files ≠ [])
    (hcount : (completed.filterMap id).length = bs * k + r) (hr : r < bs) :
    (processLoop bs completed).flushes.length = k ∧
    (∀ b ∈ (processLoop bs completed).flushes, b.length = bs) ∧
    (processLoop bs completed).batch.length = r ∧
    (process_all bs files completed).inserts
      = (if r = 0 then (processLoop bs completed).flushes
         else (processLoop bs completed).flushes ++ [(processLoop bs completed).batch]) := by
  have hsizes := sink_foldl_sizes bs hbs completed ⟨0, [], []⟩
    (by intro b hb; simp at hb) (by simpa using hbs)
  have hflush : ∀ b ∈ (processLoop bs completed).flushes, b.length = bs := hsizes.1
  have hbatch : (processLoop bs completed).batch.length < bs := hsizes.2
  have hjoin : (processLoop bs completed).flushes.flatten
        ++ (processLoop bs completed).batch
      = completed.filterMap id := by
    simpa [processLoop] using sink_foldl_flushes_batch bs completed ⟨0, [], []⟩
  have hlen : bs * (processLoop bs completed).flushes.length
        + (processLoop bs completed).batch.length
      = bs * k + r := by
    rw [← flatten_length_const bs _ hflush, ← List.length_append, hjoin, hcount]
  obtain ⟨hk, hrr⟩ := euclid_unique bs _ _ k r hbatch hr hlen
  refine ⟨hk, hflush, hrr, ?_⟩
  rw [process_all_inserts bs files completed hne]
  by_cases hzero : r = 0
  · rw [if_pos hzero, if_pos]
    rw [← List.length_eq_zero]
    omega
  · rw [if_neg hzero, if_neg]
    intro hemp
    rw [hemp] at hrr
    simp at hrr
    exact hzero hrr.symm

/-- Witness for C3: batch size 2 and three successes among four
outcomes give one automatic flush of two records and a final flush of
one. -/
theorem batch_sizing_witness :
    (processLoop 2 [some (sampleContract 1), some (sampleContract 2),
        none, some (sampleContract 3)]).flushes.length = 1 ∧
    (∀ b ∈ (processLoop 2 [some (sampleContract 1), some (sampleContract 2),
        none, some (sampleContract 3)]).flushes, b.length = 2) ∧
    (processLoop 2 [some (sampleContract 1), some (sampleContract 2),
        none, some (sampleContract 3)]).batch.length = 1 ∧
    (process_all 2 ["gs://bucket/doc.txt"]
        [some (sampleContract 1), some (sampleContract 2),
         none, some (sampleContract 3)]).inserts
      = (if 1 = 0 then (processLoop 2 [some (sampleContract 1), some (sampleContract 2),
            none, some (sampleContract 3)]).flushes
         else (processLoop 2 [some (sampleContract 1), some (sampleContract 2),
            none, some (sampleContract 3)]).flushes
          ++ [(processLoop 2 [some (sampleContract 1), some (sampleContract 2),
            none, some (sampleContract 3)]).batch]) :=
  batch_sizing 2 1 1 ["gs://bucket/doc.txt"]
    [some (sampleContract 1), some (sampleContract 2), none, some (sampleContract 3)]
    (by decide) (List.cons_ne_nil _ _) rfl (by decide)

/-! ## C5: bounded concurrency of the worker pool -/

/-- Claim C5: in every pool state reachable during a run, at most
`workers` extraction calls are in flight, and the pool carries exactly
one unit of work per submitted document (pending, running and completed
units always account for the whole submission). -/
theorem bounded_concurrency (workers : Nat) (files : List String) (s : PoolState)
    (h : Relation.ReflTransGen (PoolStep workers) (initPool files) s) :
    s.running.length ≤ workers ∧
    s.pending.length + s.running.length + s.done.length = files.length := by
  induction h with
  | refl => simp [initPool]
  | tail hsteps hstep ih =>
    cases hstep with
    | start f pending running done hlt =>
      obtain ⟨ih1, ih2⟩ := ih
      constructor
      · simpa using hlt
      · simp only [List.length_cons] at ih2 ⊢
        omega
    | finish f pending r₁ r₂ done =>
      obtain ⟨ih1, ih2⟩ := ih
      constructor
      · simp only [List.length_append, List.length_cons] at ih1 ⊢
        omega
      · simp only [List.length_append, List.length_cons] at ih2 ⊢
        omega

/-- Witness for C5: with two workers and one file, the state after
starting the single task is reachable and satisfies the bound. -/
theorem bounded_concurrency_witness :
    (PoolState.mk [] ["gs://bucket/doc.txt"] []).running.length ≤ 2 ∧
    (PoolState.mk [] ["gs://bucket/doc.txt"] []).pending.length
      + (PoolState.mk [] ["gs://bucket/doc.txt"] []).running.length
      + (PoolState.mk [] ["gs://bucket/doc.txt"] []).done.length
      = ["gs://bucket/doc.txt"].length :=
  bounded_concurrency 2 ["gs://bucket/doc.txt"] _
    (Relation.ReflTransGen.single
      (PoolStep.start "gs://bucket/doc.txt" [] [] [] (by decide)))

end Pipeline
